import Mathlib

/-!
Verification of the Ecommerce-API route file (`app.py`).

The service is a CRUD REST layer over three ORM-mapped tables — `user`,
`product`, `order` — plus the `order_product` association table for the
many-to-many Order/Product relation.  Every handler is a synchronous
function from the current database state and the request data to an HTTP
status code and a new state, so the whole program embeds as pure
functions over an explicit `Store`.

Modelling conventions, matched to the source:
* `db.session.get(Model, id)` is a primary-key lookup, embedded as
  `List.find?` on the id field.
* Marshmallow `schema.load` either raises `ValidationError` (HTTP 400) or
  yields the loaded fields; request bodies are records of `Option` fields
  and the load functions fail when a required field is absent.
* `date` values are embedded as `Nat` (the claims never inspect dates);
  the `Float` price column is embedded as `Int` (the claims concern only
  the sign and exact propagation of the stored value).
* The schema declares database constraints that fire at
  `db.session.commit()`: `order.user_id` carries `ForeignKey("user.id")`
  (and is non-nullable), and `user.email` is `unique=True`.  A commit
  that violates one raises an unhandled `IntegrityError`, which surfaces
  as HTTP 500 and rolls the transaction back; the model returns status
  500 with the store unchanged in exactly those situations.
* Deleting a `Product` also deletes its rows in the `order_product`
  secondary table (SQLAlchemy's behaviour for `secondary` relationships).
* An unhandled Python exception other than a commit failure — the
  `AttributeError` from dereferencing `order.product` when `order` is
  `None` in `remove_product` — is modelled as the `none` result.
-/

/-- Row of the `user` table: integer id, name, address, unique email. -/
structure User where
  id : Nat
  name : String
  address : String
  email : String
deriving DecidableEq, Repr

/-- Row of the `product` table: integer id, product_name, price. -/
structure Product where
  id : Nat
  product_name : String
  price : Int
deriving DecidableEq, Repr

/-- Row of the `order` table: integer id, order_date, user_id foreign key. -/
structure Order where
  id : Nat
  order_date : Nat
  user_id : Nat
deriving DecidableEq, Repr

/-- The committed database state: the three tables, the `order_product`
association table as a list of (order_id, product_id) pairs, and the
autoincrement counters for the integer primary keys. -/
structure Store where
  users : List User
  products : List Product
  orders : List Order
  order_product : List (Nat × Nat)
  next_user_id : Nat
  next_product_id : Nat
  next_order_id : Nat
deriving DecidableEq, Repr

/-- The state created by `db.create_all()`: empty tables, autoincrement
counters starting at 1. -/
def emptyStore : Store :=
  { users := [], products := [], orders := [], order_product := []
    next_user_id := 1, next_product_id := 1, next_order_id := 1 }

/-- `db.session.get(User, id)`. -/
def getUserById (s : Store) (id : Nat) : Option User :=
  s.users.find? (fun u => u.id == id)

/-- `db.session.get(Product, id)`. -/
def getProductById (s : Store) (id : Nat) : Option Product :=
  s.products.find? (fun p => p.id == id)

/-- `db.session.get(Order, id)`. -/
def getOrderById (s : Store) (id : Nat) : Option Order :=
  s.orders.find? (fun o => o.id == id)

/-- The `order.product` relationship: the products linked to the order
through the `order_product` secondary table. -/
def orderProducts (s : Store) (o : Order) : List Product :=
  s.products.filter (fun p => decide ((o.id, p.id) ∈ s.order_product))

/-- JSON body of a user create/update request; `none` fields are absent. -/
structure UserBody where
  name : Option String
  address : Option String
  email : Option String
deriving DecidableEq, Repr

/-- `user_schema.load`: all three columns are non-nullable, so all three
fields are required; a missing one raises `ValidationError`. -/
def user_schema_load (b : UserBody) : Option (String × String × String) :=
  match b.name, b.address, b.email with
  | some n, some a, some e => some (n, a, e)
  | _, _, _ => none

/-- JSON body of a product create/update request. -/
structure ProductBody where
  product_name : Option String
  price : Option Int
deriving DecidableEq, Repr

/-- `product_schema.load`: `product_name` and `price` are required; the
price need only deserialize as a number — no sign check. -/
def product_schema_load (b : ProductBody) : Option (String × Int) :=
  match b.product_name, b.price with
  | some nm, some pr => some (nm, pr)
  | _, _ => none

/-- JSON body of an order create request. -/
structure OrderBody where
  user_id : Option Nat
  order_date : Option Nat
deriving DecidableEq, Repr

/-- `order_schema.load` (with `include_fk = True`): `user_id` and
`order_date` are required. -/
def order_schema_load (b : OrderBody) : Option (Nat × Nat) :=
  match b.user_id, b.order_date with
  | some uid, some od => some (uid, od)
  | _, _ => none

/-- GET `/users/<id>` (`get_user`): fetches by primary key and returns the
serialized row — or JSON `null` when absent — always with status 200. -/
def get_user (s : Store) (id : Nat) : Nat × Option User :=
  (200, getUserById s id)

/-- POST `/users` (`create_user`): load the body (400 on failure), insert a
new `User`; the unique index on `email` makes the commit fail (500) when
another row already holds the same email. -/
def create_user (s : Store) (b : UserBody) : Nat × Store :=
  match user_schema_load b with
  | none => (400, s)
  | some (n, a, e) =>
    if s.users.any (fun u => u.email == e) then (500, s)
    else
      (201, { s with users := s.users ++ [⟨s.next_user_id, n, a, e⟩],
                     next_user_id := s.next_user_id + 1 })

/-- PUT `/users/<id>` (`update_user`): 404 when the id is absent, 400 when
the body fails validation; otherwise overwrite `name` and `email` of that
row (the loaded `address` is ignored) and commit — which fails (500) when
the new email collides with a different row's unique email. -/
def update_user (s : Store) (id : Nat) (b : UserBody) : Nat × Store :=
  match getUserById s id with
  | none => (404, s)
  | some _ =>
    match user_schema_load b with
    | none => (400, s)
    | some (n, _, e) =>
      if s.users.any (fun u => u.id != id && u.email == e) then (500, s)
      else
        let f := fun (u : User) => if u.id == id then { u with name := n, email := e } else u
        (200, { s with users := s.users.map f })

/-- DELETE `/users/<id>` (`delete_user`): 404 when absent; otherwise delete
the row.  When the user still owns orders the flush tries to null the
non-nullable `order.user_id` column of those orders, so the commit fails
(500) and nothing changes. -/
def delete_user (s : Store) (id : Nat) : Nat × Store :=
  match getUserById s id with
  | none => (404, s)
  | some _ =>
    if s.orders.any (fun o => o.user_id == id) then (500, s)
    else (200, { s with users := s.users.filter (fun u => u.id != id) })

/-- GET `/products/<id>` (`get_product`): like `get_user`, always 200 with
the row or JSON `null`. -/
def get_product (s : Store) (id : Nat) : Nat × Option Product :=
  (200, getProductById s id)

/-- POST `/products` (`create_product`): load the body (400 on failure) and
insert a new `Product` with the loaded name and price, status 201. -/
def create_product (s : Store) (b : ProductBody) : Nat × Store :=
  match product_schema_load b with
  | none => (400, s)
  | some (nm, pr) =>
    (201, { s with products := s.products ++ [⟨s.next_product_id, nm, pr⟩],
                   next_product_id := s.next_product_id + 1 })

/-- PUT `/products/<id>` (`update_product`): 404 when absent, 400 on a bad
body, otherwise overwrite `product_name` and `price` of that row. -/
def update_product (s : Store) (id : Nat) (b : ProductBody) : Nat × Store :=
  match getProductById s id with
  | none => (404, s)
  | some _ =>
    match product_schema_load b with
    | none => (400, s)
    | some (nm, pr) =>
      let f := fun (p : Product) =>
        if p.id == id then { p with product_name := nm, price := pr } else p
      (200, { s with products := s.products.map f })

/-- DELETE `/products/<id>` (`delete_product`): 404 when absent; otherwise
delete the row, which also deletes its `order_product` association rows. -/
def delete_product (s : Store) (id : Nat) : Nat × Store :=
  match getProductById s id with
  | none => (404, s)
  | some _ =>
    (200, { s with products := s.products.filter (fun p => p.id != id),
                   order_product := s.order_product.filter (fun pr => pr.2 != id) })

/-- POST `/orders` (`new_order`): load the body (400 on failure) and insert
an `Order` with the loaded `user_id` and `order_date`.  The handler never
checks that the user exists; when it does not, the `ForeignKey("user.id")`
constraint rejects the insert at commit (unhandled `IntegrityError`,
HTTP 500) and the store is unchanged. -/
def new_order (s : Store) (b : OrderBody) : Nat × Store :=
  match order_schema_load b with
  | none => (400, s)
  | some (uid, od) =>
    if s.users.any (fun u => u.id == uid) then
      (201, { s with orders := s.orders ++ [⟨s.next_order_id, od, uid⟩],
                     next_order_id := s.next_order_id + 1 })
    else (500, s)

/-- PUT `/orders/<order_id>/add_product/<product_id>` (`add_product`):
404 when the order or the product is absent, 400 ("Product already in
order") when the product is already in `order.product`, otherwise append
the association row and return 200. -/
def add_product (s : Store) (order_id product_id : Nat) : Nat × Store :=
  match getOrderById s order_id, getProductById s product_id with
  | some o, some p =>
    if p ∈ orderProducts s o then (400, s)
    else (200, { s with order_product := s.order_product ++ [(o.id, p.id)] })
  | _, _ => (404, s)

/-- DELETE `/orders/<order_id>/remove_product/<product_id>`
(`remove_product`): fetches both rows without checking the order, so when
the order is absent the test `product not in order.product` dereferences
`None` and raises `AttributeError` (result `none`).  A product that is
absent or not associated yields 404.  Otherwise the handler calls
`db.session.delete(product)` — deleting the `Product` row itself together
with all of its association rows — and returns 200. -/
def remove_product (s : Store) (order_id product_id : Nat) :
    Option (Nat × Store) :=
  match getOrderById s order_id with
  | none => none
  | some o =>
    match getProductById s product_id with
    | none => some (404, s)
    | some p =>
      if p ∈ orderProducts s o then
        some (200, { s with products := s.products.filter (fun q => q.id != p.id),
                            order_product := s.order_product.filter (fun pr => pr.2 != p.id) })
      else some (404, s)

/-- GET `/orders/user/<user_id>` (`get_user_orders`):
`select(Order).where(Order.user_id == user_id)`, always status 200. -/
def get_user_orders (s : Store) (user_id : Nat) : Nat × List Order :=
  (200, s.orders.filter (fun o => o.user_id == user_id))

/-- GET `/orders/<order_id>/products` (`get_order_products`): 404 when the
order is absent, otherwise 200 with `order.product`. -/
def get_order_products (s : Store) (order_id : Nat) : Nat × Option (List Product) :=
  match getOrderById s order_id with
  | none => (404, none)
  | some o => (200, some (orderProducts s o))

/-- One state-mutating request to the API (the GET endpoints never change
the store). -/
inductive Op where
  | createUser (b : UserBody)
  | updateUser (id : Nat) (b : UserBody)
  | deleteUser (id : Nat)
  | createProduct (b : ProductBody)
  | updateProduct (id : Nat) (b : ProductBody)
  | deleteProduct (id : Nat)
  | newOrder (b : OrderBody)
  | addProduct (order_id product_id : Nat)
  | removeProduct (order_id product_id : Nat)
deriving DecidableEq, Repr

/-- The store after handling one request; on the `remove_product` crash the
transaction is rolled back, so the store is unchanged. -/
def applyOp (s : Store) (op : Op) : Store :=
  match op with
  | .createUser b => (create_user s b).2
  | .updateUser id b => (update_user s id b).2
  | .deleteUser id => (delete_user s id).2
  | .createProduct b => (create_product s b).2
  | .updateProduct id b => (update_product s id b).2
  | .deleteProduct id => (delete_product s id).2
  | .newOrder b => (new_order s b).2
  | .addProduct a b => (add_product s a b).2
  | .removeProduct a b =>
    match remove_product s a b with
    | none => s
    | some (_, t) => t

/-- A user row with the given id exists. -/
def UserExists (s : Store) (uid : Nat) : Prop := ∃ u ∈ s.users, u.id = uid

/-- An order row with the given id exists. -/
def OrderExists (s : Store) (oid : Nat) : Prop := ∃ o ∈ s.orders, o.id = oid

/-- A product row with the given id exists. -/
def ProductExists (s : Store) (pid : Nat) : Prop := ∃ p ∈ s.products, p.id = pid

/-- The referential-integrity invariant of the data model: every order
references an existing user, every association pair links an existing
order to an existing product, and no pair is duplicated. -/
def StoreInv (s : Store) : Prop :=
  (∀ o ∈ s.orders, UserExists s o.user_id) ∧
  (∀ pr ∈ s.order_product, OrderExists s pr.1 ∧ ProductExists s pr.2) ∧
  s.order_product.Nodup

/-! ### Concrete sample rows and stores used to exercise the handlers -/

/-- A sample user row. -/
def sampleUser : User := ⟨1, "A", "addr1", "a"⟩

/-- A second sample user row with a distinct email. -/
def sampleUser2 : User := ⟨2, "B", "addr2", "b"⟩

/-- A sample product row. -/
def sampleProduct : Product := ⟨1, "w", 5⟩

/-- A sample order row owned by `sampleUser`. -/
def sampleOrder : Order := ⟨1, 10, 1⟩

/-- A second sample order row, also owned by `sampleUser`. -/
def sampleOrder2 : Order := ⟨2, 11, 1⟩

/-- One user, one product, one order, no associations yet. -/
def unassocStore : Store :=
  { users := [sampleUser], products := [sampleProduct], orders := [sampleOrder],
    order_product := [], next_user_id := 2, next_product_id := 2, next_order_id := 2 }

/-- One user, one product, two orders, and the product associated with
both orders. -/
def assocStore : Store :=
  { users := [sampleUser], products := [sampleProduct],
    orders := [sampleOrder, sampleOrder2], order_product := [(1, 1), (2, 1)],
    next_user_id := 2, next_product_id := 2, next_order_id := 3 }

/-- Two users with distinct emails, nothing else. -/
def twoUserStore : Store :=
  { users := [sampleUser, sampleUser2], products := [], orders := [],
    order_product := [], next_user_id := 3, next_product_id := 1, next_order_id := 1 }

/-! ### Basic lemmas about the primary-key lookups and the relationship -/

theorem getUserById_mem {s : Store} {id : Nat} {u : User}
    (h : getUserById s id = some u) : u ∈ s.users :=
  List.mem_of_find?_eq_some h

theorem getUserById_id {s : Store} {id : Nat} {u : User}
    (h : getUserById s id = some u) : u.id = id := by
  simpa using List.find?_some h

theorem getProductById_mem {s : Store} {id : Nat} {p : Product}
    (h : getProductById s id = some p) : p ∈ s.products :=
  List.mem_of_find?_eq_some h

theorem getProductById_id {s : Store} {id : Nat} {p : Product}
    (h : getProductById s id = some p) : p.id = id := by
  simpa using List.find?_some h

theorem getOrderById_mem {s : Store} {id : Nat} {o : Order}
    (h : getOrderById s id = some o) : o ∈ s.orders :=
  List.mem_of_find?_eq_some h

theorem getOrderById_id {s : Store} {id : Nat} {o : Order}
    (h : getOrderById s id = some o) : o.id = id := by
  simpa using List.find?_some h

theorem mem_orderProducts {s : Store} {o : Order} {p : Product} :
    p ∈ orderProducts s o ↔ p ∈ s.products ∧ (o.id, p.id) ∈ s.order_product := by
  simp [orderProducts, List.mem_filter]

/-! ### Preservation of the referential-integrity invariant by each
state-mutating handler -/

theorem storeInv_create_user (s : Store) (b : UserBody) (h : StoreInv s) :
    StoreInv (create_user s b).2 := by
  obtain ⟨h1, h2, h3⟩ := h
  unfold create_user
  cases hl : user_schema_load b with
  | none => exact ⟨h1, h2, h3⟩
  | some nae =>
    obtain ⟨n, a, e⟩ := nae
    dsimp only
    split
    · exact ⟨h1, h2, h3⟩
    · refine ⟨?_, fun pr hpr => h2 pr hpr, h3⟩
      intro o ho
      obtain ⟨u, hu, hid⟩ := h1 o ho
      exact ⟨u, List.mem_append_left _ hu, hid⟩

theorem storeInv_update_user (s : Store) (id : Nat) (b : UserBody) (h : StoreInv s) :
    StoreInv (update_user s id b).2 := by
  obtain ⟨h1, h2, h3⟩ := h
  unfold update_user
  cases hg : getUserById s id with
  | none => exact ⟨h1, h2, h3⟩
  | some u =>
    cases hl : user_schema_load b with
    | none => exact ⟨h1, h2, h3⟩
    | some nae =>
      obtain ⟨n, a, e⟩ := nae
      dsimp only
      split
      · exact ⟨h1, h2, h3⟩
      · refine ⟨?_, fun pr hpr => h2 pr hpr, h3⟩
        intro o ho
        obtain ⟨u', hu', hid⟩ := h1 o ho
        refine ⟨if u'.id == id then { u' with name := n, email := e } else u', List.mem_map_of_mem _ hu', ?_⟩
        by_cases hc : (u'.id == id) = true
        · simpa [hc] using hid
        · simpa [hc] using hid

theorem storeInv_delete_user (s : Store) (id : Nat) (h : StoreInv s) :
    StoreInv (delete_user s id).2 := by
  obtain ⟨h1, h2, h3⟩ := h
  unfold delete_user
  cases hg : getUserById s id with
  | none => exact ⟨h1, h2, h3⟩
  | some u =>
    dsimp only
    split
    · exact ⟨h1, h2, h3⟩
    · rename_i hany
      refine ⟨?_, fun pr hpr => h2 pr hpr, h3⟩
      intro o ho
      obtain ⟨u', hu', hid⟩ := h1 o ho
      have hno : ¬ o.user_id = id := by
        intro hc
        exact hany (List.any_eq_true.mpr ⟨o, ho, by simp [hc]⟩)
      refine ⟨u', List.mem_filter.mpr ⟨hu', ?_⟩, hid⟩
      exact bne_iff_ne.mpr (fun hh => hno (hid.symm.trans hh))

theorem storeInv_create_product (s : Store) (b : ProductBody) (h : StoreInv s) :
    StoreInv (create_product s b).2 := by
  obtain ⟨h1, h2, h3⟩ := h
  unfold create_product
  cases hl : product_schema_load b with
  | none => exact ⟨h1, h2, h3⟩
  | some npr =>
    obtain ⟨nm, pr⟩ := npr
    refine ⟨fun o ho => h1 o ho, ?_, h3⟩
    intro pa hpa
    obtain ⟨hOE, p, hp, hpid⟩ := h2 pa hpa
    exact ⟨hOE, p, List.mem_append_left _ hp, hpid⟩

theorem storeInv_update_product (s : Store) (id : Nat) (b : ProductBody) (h : StoreInv s) :
    StoreInv (update_product s id b).2 := by
  obtain ⟨h1, h2, h3⟩ := h
  unfold update_product
  cases hg : getProductById s id with
  | none => exact ⟨h1, h2, h3⟩
  | some p0 =>
    cases hl : product_schema_load b with
    | none => exact ⟨h1, h2, h3⟩
    | some npr =>
      obtain ⟨nm, pr⟩ := npr
      dsimp only
      refine ⟨fun o ho => h1 o ho, ?_, h3⟩
      intro pa hpa
      obtain ⟨hOE, p, hp, hpid⟩ := h2 pa hpa
      refine ⟨hOE, if p.id == id then { p with product_name := nm, price := pr } else p, List.mem_map_of_mem _ hp, ?_⟩
      by_cases hc : (p.id == id) = true
      · simpa [hc] using hpid
      · simpa [hc] using hpid

theorem storeInv_delete_product (s : Store) (id : Nat) (h : StoreInv s) :
    StoreInv (delete_product s id).2 := by
  obtain ⟨h1, h2, h3⟩ := h
  unfold delete_product
  cases hg : getProductById s id with
  | none => exact ⟨h1, h2, h3⟩
  | some p0 =>
    dsimp only
    refine ⟨fun o ho => h1 o ho, ?_, List.Nodup.filter _ h3⟩
    intro pa hpa
    obtain ⟨hmem, hne⟩ := List.mem_filter.mp hpa
    obtain ⟨hOE, p, hp, hpid⟩ := h2 pa hmem
    refine ⟨hOE, p, List.mem_filter.mpr ⟨hp, ?_⟩, hpid⟩
    exact bne_iff_ne.mpr (fun hh => (bne_iff_ne.mp hne) (hpid.symm.trans hh))

theorem storeInv_new_order (s : Store) (b : OrderBody) (h : StoreInv s) :
    StoreInv (new_order s b).2 := by
  obtain ⟨h1, h2, h3⟩ := h
  unfold new_order
  cases hl : order_schema_load b with
  | none => exact ⟨h1, h2, h3⟩
  | some uo =>
    obtain ⟨uid, od⟩ := uo
    dsimp only
    split
    · rename_i hany
      refine ⟨?_, ?_, h3⟩
      · intro o ho
        rcases List.mem_append.mp ho with ho' | ho'
        · obtain ⟨u, hu, hidu⟩ := h1 o ho'
          exact ⟨u, hu, hidu⟩
        · obtain ⟨u, hu, he⟩ := List.any_eq_true.mp hany
          have : o = ⟨s.next_order_id, od, uid⟩ := by simpa using ho'
          subst this
          exact ⟨u, hu, by simpa using he⟩
      · intro pa hpa
        obtain ⟨⟨o, hoo, hoid⟩, hPE⟩ := h2 pa hpa
        exact ⟨⟨o, List.mem_append_left _ hoo, hoid⟩, hPE⟩
    · exact ⟨h1, h2, h3⟩

theorem storeInv_add_product (s : Store) (oid pid : Nat) (h : StoreInv s) :
    StoreInv (add_product s oid pid).2 := by
  obtain ⟨h1, h2, h3⟩ := h
  unfold add_product
  cases ho : getOrderById s oid with
  | none => cases hp : getProductById s pid <;> exact ⟨h1, h2, h3⟩
  | some o =>
    cases hp : getProductById s pid with
    | none => exact ⟨h1, h2, h3⟩
    | some p =>
      dsimp only
      split
      · exact ⟨h1, h2, h3⟩
      · rename_i hnotin
        have hpmem := getProductById_mem hp
        have homem := getOrderById_mem ho
        have hpair : (o.id, p.id) ∉ s.order_product := by
          intro hc
          exact hnotin (mem_orderProducts.mpr ⟨hpmem, hc⟩)
        refine ⟨fun o' ho' => h1 o' ho', ?_, ?_⟩
        · intro pa hpa
          rcases List.mem_append.mp hpa with hold | hnew
          · obtain ⟨⟨o', hoo, hoid'⟩, q, hq, hqid⟩ := h2 pa hold
            exact ⟨⟨o', hoo, hoid'⟩, q, hq, hqid⟩
          · have : pa = (o.id, p.id) := by simpa using hnew
            subst this
            exact ⟨⟨o, homem, rfl⟩, p, hpmem, rfl⟩
        · rw [List.nodup_append]
          refine ⟨h3, List.nodup_singleton _, ?_⟩
          intro x hx hx1
          have : x = (o.id, p.id) := by simpa using hx1
          subst this
          exact hpair hx

theorem storeInv_remove_product_some {s t : Store} {oid pid c : Nat}
    (hr : remove_product s oid pid = some (c, t)) (h : StoreInv s) : StoreInv t := by
  obtain ⟨h1, h2, h3⟩ := h
  unfold remove_product at hr
  cases hg : getOrderById s oid with
  | none => rw [hg] at hr; exact absurd hr (by simp)
  | some o =>
    rw [hg] at hr
    cases hp : getProductById s pid with
    | none =>
      rw [hp] at hr
      dsimp only at hr
      obtain ⟨rfl⟩ : s = t := by
        have := Option.some.inj hr
        exact congrArg Prod.snd this
      exact ⟨h1, h2, h3⟩
    | some p =>
      rw [hp] at hr
      dsimp only at hr
      split at hr
      · have ht : t = { s with products := s.products.filter (fun q => q.id != p.id),
                               order_product := s.order_product.filter (fun pr => pr.2 != p.id) } := by
          have := Option.some.inj hr
          exact (congrArg Prod.snd this).symm
        subst ht
        refine ⟨fun o' ho' => h1 o' ho', ?_, List.Nodup.filter _ h3⟩
        intro pa hpa
        obtain ⟨hmem, hne⟩ := List.mem_filter.mp hpa
        obtain ⟨hOE, q, hq, hqid⟩ := h2 pa hmem
        refine ⟨hOE, q, List.mem_filter.mpr ⟨hq, ?_⟩, hqid⟩
        exact bne_iff_ne.mpr (fun hh => (bne_iff_ne.mp hne) (hqid.symm.trans hh))
      · have ht : t = s := by
          have := Option.some.inj hr
          exact ((congrArg Prod.snd this)).symm
        subst ht
        exact ⟨h1, h2, h3⟩

theorem storeInv_applyOp (s : Store) (op : Op) (h : StoreInv s) :
    StoreInv (applyOp s op) := by
  cases op with
  | createUser b => exact storeInv_create_user s b h
  | updateUser id b => exact storeInv_update_user s id b h
  | deleteUser id => exact storeInv_delete_user s id h
  | createProduct b => exact storeInv_create_product s b h
  | updateProduct id b => exact storeInv_update_product s id b h
  | deleteProduct id => exact storeInv_delete_product s id h
  | newOrder b => exact storeInv_new_order s b h
  | addProduct a b => exact storeInv_add_product s a b h
  | removeProduct a b =>
    show StoreInv (match remove_product s a b with | none => s | some (_, t) => t)
    cases hr : remove_product s a b with
    | none => exact h
    | some ct =>
      obtain ⟨c, t⟩ := ct
      exact storeInv_remove_product_some hr h

theorem storeInv_foldl (ops : List Op) (s : Store) (h : StoreInv s) :
    StoreInv (ops.foldl applyOp s) := by
  induction ops generalizing s with
  | nil => exact h
  | cons op rest ih => exact ih (applyOp s op) (storeInv_applyOp s op h)

theorem storeInv_empty : StoreInv emptyStore := by
  refine ⟨?_, ?_, ?_⟩ <;> simp [emptyStore, StoreInv]

/-! ### Existence of rows gives a successful primary-key lookup -/

theorem orderExists_isSome {s : Store} {oid : Nat} (h : OrderExists s oid) :
    ∃ o, getOrderById s oid = some o := by
  obtain ⟨o, ho, hoid⟩ := h
  apply Option.isSome_iff_exists.mp
  unfold getOrderById
  rw [List.find?_isSome]
  exact ⟨o, ho, by simp [hoid]⟩

theorem productExists_isSome {s : Store} {pid : Nat} (h : ProductExists s pid) :
    ∃ p, getProductById s pid = some p := by
  obtain ⟨p, hp, hpid⟩ := h
  apply Option.isSome_iff_exists.mp
  unfold getProductById
  rw [List.find?_isSome]
  exact ⟨p, hp, by simp [hpid]⟩

/-! ### The claims -/

/-- C1: the claim says `remove_product` removes only the association row
and leaves the `Product` entity in the store, still associated with other
orders.  The code instead calls `db.session.delete(product)`: on a store
where product 1 is associated with both order 1 and order 2, removing it
from order 1 deletes the `Product` row itself — it is no longer
retrievable — and its association with order 2 disappears as well. -/
theorem remove_product_deletes_product_entity :
    remove_product assocStore 1 1 =
      some (200, { assocStore with products := [], order_product := [] }) ∧
    getProductById ({ assocStore with products := [], order_product := [] }) 1 = none ∧
    (2, 1) ∉ ({ assocStore with products := [], order_product := [] } : Store).order_product := by
  exact ⟨rfl, rfl, by decide⟩

/-- C2: starting from the state `db.create_all()` produces, every store
reachable through any sequence of the exposed mutating operations
satisfies the referential-integrity invariant: each order references an
existing user, and each association pair links an existing order to an
existing product and occurs at most once. -/
theorem reachable_states_referential_integrity (ops : List Op) :
    StoreInv (ops.foldl applyOp emptyStore) :=
  storeInv_foldl ops emptyStore storeInv_empty

/-- C4: the claim says fetching a missing user, product, or order's
products returns not-found.  The code returns 404 only for the order
case: `get_user` and `get_product` skip the existence check and answer
200 with a JSON `null` body. -/
theorem get_missing_entity_responses :
    get_user emptyStore 1 = (200, none) ∧
    get_product emptyStore 1 = (200, none) ∧
    get_order_products emptyStore 1 = (404, none) :=
  ⟨rfl, rfl, rfl⟩

/-- C5: the claim says `remove_product` is total with NotFound as its only
error branch.  When the order id matches no order the code evaluates
`product not in order.product` with `order = None` and crashes with an
`AttributeError` (the `none` result) instead of returning 404; the 404
branch is reached only when the order exists, as in the second
conjunct (existing order, product not associated). -/
theorem remove_product_missing_order_crash :
    remove_product emptyStore 1 1 = none ∧
    remove_product unassocStore 1 1 = some (404, unassocStore) :=
  ⟨rfl, rfl⟩

/-- C6: the claim says order creation with a well-formed body whose
`user_id` matches no user fails with NotFound.  The handler never checks
the user: the insert is rejected by the `ForeignKey("user.id")`
constraint at commit, surfacing as an unhandled `IntegrityError`
(HTTP 500), not a 404.  The ValidationError branch (400 on a missing
field) and the successful insert (201) behave as claimed. -/
theorem new_order_missing_user_500 :
    order_schema_load ⟨some 1, some 10⟩ = some (1, 10) ∧
    new_order emptyStore ⟨some 1, some 10⟩ = (500, emptyStore) ∧
    new_order emptyStore ⟨none, some 10⟩ = (400, emptyStore) ∧
    new_order unassocStore ⟨some 1, some 12⟩ =
      (201, { unassocStore with
              orders := unassocStore.orders ++ [⟨2, 12, 1⟩],
              next_order_id := 3 }) :=
  ⟨rfl, rfl, rfl, rfl⟩

/-- C7: listing orders for a user returns status 200 and exactly the
orders whose `user_id` field equals the requested id: an order is in the
response iff it is in the store and matches. -/
theorem get_user_orders_exactly_matching (s : Store) (uid : Nat) :
    (get_user_orders s uid).1 = 200 ∧
    ∀ o : Order, o ∈ (get_user_orders s uid).2 ↔ o ∈ s.orders ∧ o.user_id = uid := by
  refine ⟨rfl, fun o => ?_⟩
  simp [get_user_orders, List.mem_filter]

/-- C10: listing orders for a user never fails: for every store and every
user id — including ids matching no user — the handler answers 200 (in
particular, never 404) with the possibly empty list of matching
orders. -/
theorem get_user_orders_never_not_found (s : Store) (uid : Nat) :
    (get_user_orders s uid).1 = 200 ∧ (get_user_orders s uid).1 ≠ 404 ∧
    (get_user_orders s uid).2 = s.orders.filter (fun o => o.user_id == uid) :=
  ⟨rfl, by intro h; simp [get_user_orders] at h, rfl⟩

/-- C3: for an existing order and an existing product not yet associated,
`add_product` succeeds with 200 and appends the association pair, so its
count in the table is exactly 1; immediately adding the same pair again
answers 400 ("Product already in order") and leaves the store unchanged;
and whenever the order or the product is absent the handler answers 404
and changes nothing. -/
theorem add_product_contract (s : Store) (oid pid : Nat)
    (ho : OrderExists s oid) (hp : ProductExists s pid)
    (hnot : (oid, pid) ∉ s.order_product) :
    add_product s oid pid =
      (200, { s with order_product := s.order_product ++ [(oid, pid)] }) ∧
    (add_product s oid pid).2.order_product.count (oid, pid) = 1 ∧
    add_product (add_product s oid pid).2 oid pid = (400, (add_product s oid pid).2) ∧
    (∀ t a b, getOrderById t a = none ∨ getProductById t b = none →
      add_product t a b = (404, t)) := by
  obtain ⟨o, ho'⟩ := orderExists_isSome ho
  obtain ⟨p, hp'⟩ := productExists_isSome hp
  have hoid := getOrderById_id ho'
  have hpid := getProductById_id hp'
  have hguard : p ∉ orderProducts s o := by
    intro hc
    obtain ⟨_, hpair⟩ := mem_orderProducts.mp hc
    rw [hoid, hpid] at hpair
    exact hnot hpair
  have hval : add_product s oid pid =
      (200, { s with order_product := s.order_product ++ [(oid, pid)] }) := by
    unfold add_product
    rw [ho', hp']
    dsimp only
    rw [if_neg hguard, hoid, hpid]
  refine ⟨hval, ?_, ?_, ?_⟩
  · rw [hval]
    dsimp only
    rw [List.count_append, List.count_eq_zero.mpr hnot]
    simp
  · rw [hval]
    dsimp only
    unfold add_product
    have ho2 : getOrderById
        { s with order_product := s.order_product ++ [(oid, pid)] } oid = some o := ho'
    have hp2 : getProductById
        { s with order_product := s.order_product ++ [(oid, pid)] } pid = some p := hp'
    rw [ho2, hp2]
    dsimp only
    have hin : p ∈ orderProducts
        { s with order_product := s.order_product ++ [(oid, pid)] } o := by
      apply mem_orderProducts.mpr
      constructor
      · exact getProductById_mem hp'
      · rw [hoid, hpid]
        exact List.mem_append_right _ (List.mem_singleton.mpr rfl)
    rw [if_pos hin]
  · intro t a b hmiss
    unfold add_product
    rcases hmiss with hmo | hmp
    · rw [hmo]
    · rw [hmp]
      cases hg : getOrderById t a <;> rfl

/-- Witness for C3 at a concrete input: one user, order 1, product 1, no
associations yet. -/
theorem add_product_contract_witness :
    add_product unassocStore 1 1 =
      (200, { unassocStore with
              order_product := unassocStore.order_product ++ [(1, 1)] }) ∧
    (add_product unassocStore 1 1).2.order_product.count (1, 1) = 1 ∧
    add_product (add_product unassocStore 1 1).2 1 1 =
      (400, (add_product unassocStore 1 1).2) ∧
    (∀ t a b, getOrderById t a = none ∨ getProductById t b = none →
      add_product t a b = (404, t)) :=
  add_product_contract unassocStore 1 1
    ⟨sampleOrder, by decide, rfl⟩ ⟨sampleProduct, by decide, rfl⟩ (by decide)

/-- C8 counterexample: a schema-valid body whose email equals another
user's unique email makes the commit fail.  Updating user 1 (name "A",
email "a") to email "b" — already held by user 2 — answers 500 and leaves
the store unchanged, so name and email are NOT replaced as the claim
states. -/
theorem update_user_unique_email_counterexample :
    user_schema_load ⟨some "A2", some "addr1", some "b"⟩ =
      some ("A2", "addr1", "b") ∧
    update_user twoUserStore 1 ⟨some "A2", some "addr1", some "b"⟩ =
      (500, twoUserStore) ∧
    getUserById twoUserStore 1 = some sampleUser ∧
    sampleUser.name = "A" ∧ sampleUser.email = "a" :=
  ⟨rfl, rfl, rfl, rfl, rfl⟩

/-- C8 (amended): updating a user by id with a valid body whose email is
not already held by a different user replaces exactly the `name` and
`email` fields of that user, leaving its `id` and `address` and every
other user — and the other tables — unchanged, with status 200; when no
user with that id exists the handler answers 404 and the store is
unchanged. -/
theorem update_user_contract (s : Store) (id : Nat) (b : UserBody)
    (n a e : String)
    (hload : user_schema_load b = some (n, a, e))
    (huniq : ∀ u ∈ s.users, u.id ≠ id → u.email ≠ e) :
    (getUserById s id = none → update_user s id b = (404, s)) ∧
    ((getUserById s id).isSome →
      update_user s id b =
        (200, { s with users := s.users.map (fun u =>
          if u.id == id then { u with name := n, email := e } else u) }) ∧
      (update_user s id b).2.products = s.products ∧
      (update_user s id b).2.orders = s.orders ∧
      (update_user s id b).2.order_product = s.order_product ∧
      (∀ u ∈ s.users, u.id ≠ id → u ∈ (update_user s id b).2.users) ∧
      (∀ u ∈ s.users, u.id = id →
        ({ u with name := n, email := e } : User) ∈ (update_user s id b).2.users)) := by
  constructor
  · intro hnone
    unfold update_user
    rw [hnone]
  · intro hsome
    obtain ⟨u0, hu0⟩ := Option.isSome_iff_exists.mp hsome
    have hany : ¬ (s.users.any (fun u => u.id != id && u.email == e) = true) := by
      intro hc
      obtain ⟨u, hu, hcond⟩ := List.any_eq_true.mp hc
      simp only [Bool.and_eq_true, bne_iff_ne, beq_iff_eq] at hcond
      exact huniq u hu hcond.1 hcond.2
    have hres : update_user s id b =
        (200, { s with users := s.users.map (fun u =>
          if u.id == id then { u with name := n, email := e } else u) }) := by
      unfold update_user
      rw [hu0, hload]
      dsimp only
      rw [if_neg hany]
    rw [hres]
    refine ⟨rfl, rfl, rfl, rfl, ?_, ?_⟩
    · intro u hu hne
      have heq : (if u.id == id then { u with name := n, email := e } else u) = u := by
        rw [if_neg]
        simp [hne]
      exact heq ▸ List.mem_map_of_mem _ hu
    · intro u hu hid
      have heq : (if u.id == id then { u with name := n, email := e } else u)
          = { u with name := n, email := e } := by
        rw [if_pos]
        simp [hid]
      exact heq ▸ List.mem_map_of_mem _ hu

/-- Witness for the amended C8: update user 1 of the two-user store to a
fresh email "c"; name and email are replaced, everything else is kept. -/
theorem update_user_contract_witness :
    (getUserById twoUserStore 1 = none →
      update_user twoUserStore 1 ⟨some "A2", some "addr9", some "c"⟩ =
        (404, twoUserStore)) ∧
    ((getUserById twoUserStore 1).isSome →
      update_user twoUserStore 1 ⟨some "A2", some "addr9", some "c"⟩ =
        (200, { twoUserStore with users := twoUserStore.users.map (fun u =>
          if u.id == 1 then { u with name := "A2", email := "c" } else u) }) ∧
      (update_user twoUserStore 1 ⟨some "A2", some "addr9", some "c"⟩).2.products =
        twoUserStore.products ∧
      (update_user twoUserStore 1 ⟨some "A2", some "addr9", some "c"⟩).2.orders =
        twoUserStore.orders ∧
      (update_user twoUserStore 1 ⟨some "A2", some "addr9", some "c"⟩).2.order_product =
        twoUserStore.order_product ∧
      (∀ u ∈ twoUserStore.users, u.id ≠ 1 →
        u ∈ (update_user twoUserStore 1 ⟨some "A2", some "addr9", some "c"⟩).2.users) ∧
      (∀ u ∈ twoUserStore.users, u.id = 1 →
        ({ u with name := "A2", email := "c" } : User) ∈
          (update_user twoUserStore 1 ⟨some "A2", some "addr9", some "c"⟩).2.users)) :=
  update_user_contract twoUserStore 1 ⟨some "A2", some "addr9", some "c"⟩
    "A2" "addr9" "c" rfl (by decide)

/-- C9 counterexample: the claim says no stored product ever has a
negative price.  `product_schema.load` only requires the price to be a
number, so creating a product with price −1 succeeds (201) and stores the
negative price. -/
theorem create_product_negative_price :
    (create_product emptyStore ⟨some "w", some (-1)⟩).1 = 201 ∧
    (create_product emptyStore ⟨some "w", some (-1)⟩).2.products =
      [⟨1, "w", -1⟩] ∧
    ∃ p ∈ (create_product emptyStore ⟨some "w", some (-1)⟩).2.products,
      p.price < 0 :=
  ⟨rfl, rfl, ⟨1, "w", -1⟩, by decide, by decide⟩

/-- C9 (amended): product creation and update store whatever numeric
price the body deserializes to, verbatim and with no sign restriction —
so a stored price may be negative.  Creation appends a product carrying
exactly the loaded name and price; update rewrites the addressed row to
the loaded price. -/
theorem product_price_stored_verbatim (s : Store) (b : ProductBody)
    (nm : String) (pr : Int)
    (hload : product_schema_load b = some (nm, pr)) :
    create_product s b =
      (201, { s with products := s.products ++ [⟨s.next_product_id, nm, pr⟩],
                     next_product_id := s.next_product_id + 1 }) ∧
    (∃ p ∈ (create_product s b).2.products, p.product_name = nm ∧ p.price = pr) ∧
    (∀ id, (getProductById s id).isSome →
      ∃ p ∈ (update_product s id b).2.products, p.id = id ∧ p.price = pr) := by
  have hcre : create_product s b =
      (201, { s with products := s.products ++ [⟨s.next_product_id, nm, pr⟩],
                     next_product_id := s.next_product_id + 1 }) := by
    unfold create_product
    rw [hload]
  refine ⟨hcre, ?_, ?_⟩
  · rw [hcre]
    exact ⟨⟨s.next_product_id, nm, pr⟩,
      List.mem_append_right _ (List.mem_singleton.mpr rfl), rfl, rfl⟩
  · intro id hsome
    obtain ⟨p0, hp0⟩ := Option.isSome_iff_exists.mp hsome
    have hmem := getProductById_mem hp0
    have hpid := getProductById_id hp0
    unfold update_product
    rw [hp0, hload]
    dsimp only
    refine ⟨{ p0 with product_name := nm, price := pr }, ?_, hpid, rfl⟩
    have heq : (if p0.id == id then { p0 with product_name := nm, price := pr } else p0)
        = { p0 with product_name := nm, price := pr } := by
      rw [if_pos]
      simp [hpid]
    exact heq ▸ List.mem_map_of_mem _ hmem

/-- Witness for the amended C9 at price −2: creating stores −2 verbatim,
and updating product 1 stores −2 verbatim. -/
theorem product_price_stored_verbatim_witness :
    create_product unassocStore ⟨some "v", some (-2)⟩ =
      (201, { unassocStore with
              products := unassocStore.products ++ [⟨2, "v", -2⟩],
              next_product_id := 3 }) ∧
    (∃ p ∈ (create_product unassocStore ⟨some "v", some (-2)⟩).2.products,
      p.product_name = "v" ∧ p.price = -2) ∧
    (∀ id, (getProductById unassocStore id).isSome →
      ∃ p ∈ (update_product unassocStore id ⟨some "v", some (-2)⟩).2.products,
        p.id = id ∧ p.price = -2) :=
  product_price_stored_verbatim unassocStore ⟨some "v", some (-2)⟩ "v" (-2) rfl
